import Mathlib

/-!
Shallow embedding of the ollama-api-proxy protocol-translation core
(`src/index.js`) and proofs about its embedding-batch orchestration,
request/response validation, streaming state machine, error
classification and option forwarding.

Modelling conventions:
* JavaScript values that a request body may carry in the fields the code
  inspects dynamically are modelled by `JVal` (undefined, null, string,
  number, boolean, array), with JS truthiness as `jvalTruthy`.  Numeric
  payloads inside embedding vectors are never computed with, only moved
  around, so vector entries are modelled as `Int`.
* The model registry (`embeddingModels` / `chatModels`) and the provider
  table are modelled as lookup functions passed in as parameters; the
  upstream HTTP calls are modelled as explicit function parameters so a
  run of the orchestrator is a pure computation.
* `Except String α` models a JS function that either returns or throws an
  `Error` with the given message.
-/

namespace OllamaProxy

/-- A dynamically-typed JavaScript value as far as the proxy inspects one. -/
inductive JVal where
  | undef
  | null
  | str (s : String)
  | num (n : Int)
  | bool (b : Bool)
  | arr (xs : List JVal)

/-- JavaScript truthiness for the values the proxy branches on
(`if (body.prompt)`, `else if (body.input)`, ...).  Arrays are always
truthy, the empty string and zero are falsy. -/
def jvalTruthy : JVal → Bool
  | .undef => false
  | .null => false
  | .str s => s != ""
  | .num n => n != 0
  | .bool b => b
  | .arr _ => true

/-- JS `String.prototype.trim`: strip leading and trailing whitespace.
(Defined over the character list so it is kernel-computable; Lean's own
`String.trim` is well-founded recursion.) -/
def jsTrim (s : String) : String :=
  ⟨((s.data.dropWhile Char.isWhitespace).reverse.dropWhile Char.isWhitespace).reverse⟩

/-- `typeof v === 'string'`. -/
def jvalIsStr : JVal → Bool
  | .str _ => true
  | _ => false

/-- One entry of `models.json`: `{ provider, model, type }`. -/
structure ModelConfig where
  provider : String
  model : String
  type : String

/-- `pat` matches at the head of `l` (character-wise). -/
def leadMatch : List Char → List Char → Bool
  | [], _ => true
  | _ :: _, [] => false
  | p :: ps, c :: cs => p == c && leadMatch ps cs

/-- `pat` occurs somewhere inside `l`. -/
def subMatch : List Char → List Char → Bool
  | pat, [] => pat.isEmpty
  | pat, c :: cs => leadMatch pat (c :: cs) || subMatch pat cs

/-- JavaScript `s.includes(pat)`, used by the error classifier. -/
def jsIncludes (s pat : String) : Bool := subMatch pat.data s.data

/-- `validateEmbeddingModel` (src/index.js:166-178): look the name up in the
embedding registry, re-check the provider and the kind. -/
def validateEmbeddingModel (embeddingModels : String → Option ModelConfig)
    (providers : String → Bool) (name : String) : Except String ModelConfig :=
  match embeddingModels name with
  | none => .error ("Embedding model " ++ name ++ " not supported")
  | some config =>
    if !(providers config.provider) then
      .error ("Provider " ++ config.provider ++ " not available")
    else if config.type != "embedding" then
      .error ("Model " ++ name ++ " is not an embedding model")
    else
      .ok config

/-- `validateChatModel` (src/index.js:155-164). -/
def validateChatModel (chatModels : String → Option ModelConfig)
    (providers : String → Bool) (name : String) : Except String ModelConfig :=
  match chatModels name with
  | none => .error ("Chat model " ++ name ++ " not supported")
  | some config =>
    if !(providers config.provider) then
      .error ("Provider " ++ config.provider ++ " not available")
    else
      .ok config

/-- An embedding request body; the code only reads `model`, `prompt` and
`input`.  `model` is restricted to a string-or-absent value (non-string
model names are outside every claim). -/
structure EmbBody where
  model : Option String
  prompt : JVal
  input : JVal

/-- Result of `validateEmbeddingRequest`. -/
structure ValidatedEmb where
  modelConfig : ModelConfig
  inputTexts : List String
  isSingleText : Bool

/-- The `body.input.map((text, index) => ...)` pass (src/index.js:206-215):
each element must be a string and non-empty after trimming; index-specific
errors; returns the trimmed texts. -/
def parseInputs : Nat → List JVal → Except String (List String)
  | _, [] => .ok []
  | i, v :: vs =>
    match v with
    | .str t =>
      if jsTrim t == "" then
        .error ("Input at index " ++ toString i ++ " cannot be empty")
      else
        match parseInputs (i + 1) vs with
        | .error m => .error m
        | .ok rest => .ok (jsTrim t :: rest)
    | _ => .error ("Input at index " ++ toString i ++ " must be a string")

/-- The per-text length loop (src/index.js:237-241). -/
def checkLengths : Nat → List String → Except String Unit
  | _, [] => .ok ()
  | i, t :: ts =>
    if t.length > 10000 then
      .error ("Input text at index " ++ toString i ++
        " is too long. Maximum length: 10000 characters")
    else checkLengths (i + 1) ts

/-- The tail of `validateEmbeddingRequest` (src/index.js:229-247): size
limits then the returned record.  `promptDefined` is `body.prompt !==
undefined`. -/
def finishValidation (modelConfig : ModelConfig) (inputTexts : List String)
    (promptDefined : Bool) : Except String ValidatedEmb :=
  if inputTexts.length > 100 then
    .error "Too many input texts. Maximum allowed: 100"
  else
    match checkLengths 0 inputTexts with
    | .error m => .error m
    | .ok _ =>
      .ok { modelConfig := modelConfig, inputTexts := inputTexts,
            isSingleText := inputTexts.length == 1 && promptDefined }

/-- `validateEmbeddingRequest` (src/index.js:181-248). -/
def validateEmbeddingRequest (embeddingModels : String → Option ModelConfig)
    (providers : String → Bool) (body : EmbBody) : Except String ValidatedEmb :=
  match body.model with
  | none => .error "Missing required field: model"
  | some name =>
    if name == "" then .error "Missing required field: model"
    else
      match validateEmbeddingModel embeddingModels providers name with
      | .error m => .error m
      | .ok modelConfig =>
        let promptDefined := !(body.prompt matches .undef)
        if jvalTruthy body.prompt then
          match body.prompt with
          | .str p =>
            if jsTrim p == "" then .error "Prompt must be a non-empty string"
            else finishValidation modelConfig [jsTrim p] promptDefined
          | _ => .error "Prompt must be a non-empty string"
        else if jvalTruthy body.input then
          match body.input with
          | .arr xs =>
            if xs.length == 0 then .error "Input array cannot be empty"
            else
              match parseInputs 0 xs with
              | .error m => .error m
              | .ok texts => finishValidation modelConfig texts promptDefined
          | .str s =>
            if jsTrim s == "" then .error "Input cannot be empty"
            else finishValidation modelConfig [jsTrim s] promptDefined
          | _ => .error "Input must be a string or array of strings"
        else
          .error "Missing required field: either \"prompt\" or \"input\" must be provided"

/-- `handleEmbeddingError` (src/index.js:251-288): classify a failure message
into an HTTP status and user-facing message by substring matching. -/
def handleEmbeddingError (msg : String) : Nat × String :=
  if jsIncludes msg "not supported" || jsIncludes msg "not an embedding model" ||
      jsIncludes msg "Missing required field" || jsIncludes msg "must be" ||
      jsIncludes msg "cannot be empty" || jsIncludes msg "Too many" ||
      jsIncludes msg "too long" then
    (400, msg)
  else if jsIncludes msg "not available" || jsIncludes msg "API key" ||
      jsIncludes msg "authentication" || jsIncludes msg "unauthorized" then
    (401, msg)
  else if jsIncludes msg "rate limit" || jsIncludes msg "quota" ||
      jsIncludes msg "too many requests" then
    (429, "Rate limit exceeded. Please try again later.")
  else if jsIncludes msg "service unavailable" || jsIncludes msg "timeout" then
    (503, "Service temporarily unavailable. Please try again later.")
  else
    (500, "Internal server error")

/-- Outcome of one `fetch` against the Google embedding endpoint, as far as
`generateEmbeddings` inspects it: either a non-2xx reply with a status and
body text, or a parsed JSON body whose `embedding.values` is present and an
array (`some values`) or missing/invalid (`none`). -/
inductive FetchResult where
  | httpErr (status : Nat) (errorData : String)
  | ok (values : Option (List Int))

/-- The body of the per-item `try` in `generateEmbeddings`
(src/index.js:308-354): turn one fetch outcome for item `i` into the vector
or the thrown error message. -/
def embedItemResult (i : Nat) : FetchResult → Except String (List Int)
  | .httpErr status errorData =>
    if status == 401 then
      .error "Google API authentication failed. Please check your GEMINI_API_KEY."
    else if status == 429 then
      .error "Google API rate limit exceeded. Please try again later."
    else if status == 400 then
      .error ("Invalid request to Google API: " ++ errorData)
    else
      .error ("Google API error (" ++ toString status ++ "): " ++ errorData)
  | .ok none =>
    .error ("Invalid embedding response for text " ++ toString (i + 1) ++
      ": missing or invalid embedding array")
  | .ok (some v) => .ok v

/-- `generateEmbeddings`'s result record (src/index.js:359-363). -/
structure EmbedResult where
  embeddings : List (List Int)
  model : String
  dimensions : Nat

/-- The sequential per-text loop of `generateEmbeddings`
(src/index.js:305-355), instrumented with the list of item indices for which
an upstream call was actually issued.  `upstream i t` is the fetch outcome
for input text `t` at index `i`. -/
def generateEmbeddingsLoop (upstream : Nat → String → FetchResult) :
    Nat → List String → List Nat × Except String (List (List Int))
  | _, [] => ([], .ok [])
  | i, t :: ts =>
    match embedItemResult i (upstream i t) with
    | .error m => ([i], .error m)
    | .ok v =>
      match generateEmbeddingsLoop upstream (i + 1) ts with
      | (tr, .error m) => (i :: tr, .error m)
      | (tr, .ok vs) => (i :: tr, .ok (v :: vs))

/-- `generateEmbeddings` (src/index.js:291-369).  `hasGeminiKey` models
`process.env.GEMINI_API_KEY` being set.  Returns the issued-call trace
together with the result or the re-thrown error. -/
def generateEmbeddings (hasGeminiKey : Bool) (modelConfig : ModelConfig)
    (upstream : Nat → String → FetchResult) (inputTexts : List String) :
    List Nat × Except String EmbedResult :=
  if modelConfig.provider == "google" && !hasGeminiKey then
    ([], .error "Google API key (GEMINI_API_KEY) is required for Google embedding models")
  else if modelConfig.provider != "google" then
    ([], .error ("Only Google embedding models are currently supported, got: " ++
      modelConfig.provider))
  else
    match generateEmbeddingsLoop upstream 0 inputTexts with
    | (tr, .error m) => (tr, .error m)
    | (tr, .ok embeddings) =>
      (tr, .ok { embeddings := embeddings, model := modelConfig.model,
                 dimensions := (embeddings.headD []).length })

/-- One element of the batch envelope's `embeddings` array. -/
structure EmbObj where
  embedding : Option (List Int)

/-- The assembled embedding envelope.  `model` and `created_at` are kept as
`JVal` because `validateEmbeddingResponse` checks their runtime type. -/
structure EmbResponse where
  embedding : Option (List Int)
  embeddings : Option (List EmbObj)
  model : JVal
  created_at : JVal

/-- `formatEmbeddingResponse` (src/index.js:372-396); `timestamp` stands for
`new Date().toISOString()`.  In the single-text shape
`embeddingResult.embeddings[0]` is `undefined` when the list is empty, which
`head?` models as `none`. -/
def formatEmbeddingResponse (embeddingResult : EmbedResult) (modelName : String)
    (isSingleText : Bool) (timestamp : String) : EmbResponse :=
  if isSingleText then
    { embedding := embeddingResult.embeddings.head?, embeddings := none,
      model := .str modelName, created_at := .str timestamp }
  else
    { embedding := none,
      embeddings := some (embeddingResult.embeddings.map fun e => { embedding := some e }),
      model := .str modelName, created_at := .str timestamp }

/-- The per-object loop of `validateEmbeddingResponse` (src/index.js:425-433). -/
def checkEmbObjs : Nat → List EmbObj → Except String Unit
  | _, [] => .ok ()
  | i, o :: os =>
    match o.embedding with
    | none => .error ("Embedding at index " ++ toString i ++ " is invalid or missing")
    | some v =>
      if v.length == 0 then .error ("Embedding at index " ++ toString i ++ " is empty")
      else checkEmbObjs (i + 1) os

/-- The trailing `model` / `created_at` checks of `validateEmbeddingResponse`
(src/index.js:438-447). -/
def checkEnvelopeFields (resp : EmbResponse) : Except String Bool :=
  if !(jvalTruthy resp.model) || !(jvalIsStr resp.model) then
    .error "Response must contain valid model name"
  else if !(jvalTruthy resp.created_at) || !(jvalIsStr resp.created_at) then
    .error "Response must contain valid created_at timestamp"
  else
    .ok true

/-- `validateEmbeddingResponse` (src/index.js:399-448).  A present vector is
always an array in this typed model, so the `Array.isArray` checks cannot
fire and are omitted; array truthiness (even for `[]`) is preserved. -/
def validateEmbeddingResponse (resp : EmbResponse) (expectedCount : Nat) :
    Except String Bool :=
  match resp.embedding with
  | some v =>
    if v.length == 0 then .error "Embedding array cannot be empty"
    else if expectedCount != 1 then
      .error ("Expected " ++ toString expectedCount ++ " embeddings but got single embedding")
    else checkEnvelopeFields resp
  | none =>
    match resp.embeddings with
    | some objs =>
      if objs.length != expectedCount then
        .error ("Expected " ++ toString expectedCount ++ " embeddings but got " ++
          toString objs.length)
      else
        match checkEmbObjs 0 objs with
        | .error m => .error m
        | .ok _ => checkEnvelopeFields resp
    | none => .error "Response must contain either \"embedding\" or \"embeddings\" field"

/-- The reply sent by the `POST /api/embeddings` handler: a 200 success with
the validated envelope, or the classified error shape. -/
inductive EmbReply where
  | success (resp : EmbResponse)
  | failure (status : Nat) (msg : String)

/-- The `POST /api/embeddings` route handler (src/index.js:738-767):
validate, generate, format, re-validate, send; any thrown error goes through
`handleEmbeddingError`.  The first component is the trace of upstream
embedding calls issued. -/
def postEmbeddings (embeddingModels : String → Option ModelConfig)
    (providers : String → Bool) (hasGeminiKey : Bool)
    (upstream : Nat → String → FetchResult) (timestamp : String)
    (body : EmbBody) : List Nat × EmbReply :=
  match validateEmbeddingRequest embeddingModels providers body with
  | .error m => ([], .failure (handleEmbeddingError m).1 (handleEmbeddingError m).2)
  | .ok v =>
    match generateEmbeddings hasGeminiKey v.modelConfig upstream v.inputTexts with
    | (tr, .error m) => (tr, .failure (handleEmbeddingError m).1 (handleEmbeddingError m).2)
    | (tr, .ok embeddingResult) =>
      match validateEmbeddingResponse
          (formatEmbeddingResponse embeddingResult (body.model.getD "")
            v.isSingleText timestamp)
          v.inputTexts.length with
      | .error m => (tr, .failure (handleEmbeddingError m).1 (handleEmbeddingError m).2)
      | .ok _ =>
        (tr, .success (formatEmbeddingResponse embeddingResult (body.model.getD "")
          v.isSingleText timestamp))

/-- Statement-side projection: the vectors carried by an envelope, in order. -/
def responseVectors (resp : EmbResponse) : List (List Int) :=
  match resp.embedding with
  | some v => [v]
  | none =>
    match resp.embeddings with
    | some objs => objs.map fun o => o.embedding.getD []
    | none => []

/-- A chat message as received from the client; `content` is a string or
absent (`undefined`). -/
structure Message where
  role : String
  content : Option String

/-- A message after `prepareMessages`. -/
structure PreparedMsg where
  role : String
  content : String

/-- `prepareMessages` (src/index.js:451-456): drop messages whose content is
falsy or trims to the empty string, force the role to `assistant`/`user`,
trim the content. -/
def prepareMessages (msgs : List Message) : List PreparedMsg :=
  (msgs.filter fun m =>
    match m.content with
    | none => false
    | some s => s != "" && jsTrim s != "").map fun m =>
    { role := if m.role == "assistant" then "assistant" else "user",
      content := jsTrim (m.content.getD "") }

/-- The decoded `options` object of a chat/generate request; each field is
either absent or an arbitrary JS value. -/
structure GenOptions where
  temperature : JVal
  num_predict : JVal
  top_p : JVal

/-- The option arguments handed to the AI SDK (`generateText` /
`streamText`). -/
structure GenerateCallArgs where
  temperature : JVal
  maxTokens : JVal
  topP : JVal

/-- The options forwarded by the non-streaming `generateText` call
(src/index.js:470-476): `maxTokens: options.num_predict || 32768`. -/
def generateCallArgs (o : GenOptions) : GenerateCallArgs :=
  { temperature := o.temperature,
    maxTokens := if jvalTruthy o.num_predict then o.num_predict else .num 32768,
    topP := o.top_p }

/-- The options forwarded by the streaming `streamText` call
(src/index.js:532-538): `maxTokens: options.num_predict`, no default. -/
def streamCallArgs (o : GenOptions) : GenerateCallArgs :=
  { temperature := o.temperature, maxTokens := o.num_predict, topP := o.top_p }

/-- One message of an upstream structured transcript. -/
structure UpstreamMsg where
  role : String
  content : Option String
  text : Option String
  reasoning : Option String

/-- What `generateText` resolves with, as far as `generateResponse` reads it. -/
structure GenTextResult where
  text : Option String
  reasoning : Option String
  messages : Option (List UpstreamMsg)

/-- JS `a || b` on string-or-undefined values. -/
def jsOrStr (a b : Option String) : Option String :=
  match a with
  | some s => if s == "" then b else some s
  | none => b

/-- JS `v || null` on a string-or-undefined value. -/
def jsOrNull (a : Option String) : Option String :=
  match a with
  | some s => if s == "" then none else some s
  | none => none

/-- `generateResponse`'s structured return value (src/index.js:502-507). -/
structure GenResponse where
  text : String
  reasoning : Option String
  messages : Option (List UpstreamMsg)

/-- `generateResponse` (src/index.js:460-508).  `genText` stands for the AI
SDK's `generateText`: it receives exactly the decoded call arguments and the
prepared messages, and either resolves or throws. -/
def generateResponse (genText : GenerateCallArgs → List PreparedMsg → Except String GenTextResult)
    (msgs : List Message) (o : GenOptions) : Except String GenResponse :=
  let validMessages := prepareMessages msgs
  if validMessages.length == 0 then .error "No valid messages found"
  else
    match genText (generateCallArgs o) validMessages with
    | .error m => .error m
    | .ok result =>
      let text := result.text
      let reasoning := jsOrNull result.reasoning
      match result.messages with
      | none =>
        .ok { text := text.getD "", reasoning := reasoning, messages := none }
      | some ms =>
        match (ms.filter fun mm => mm.role == "assistant").getLast? with
        | none =>
          .ok { text := text.getD "", reasoning := reasoning, messages := some ms }
        | some assistantMessage =>
          let text := jsOrStr assistantMessage.content (jsOrStr assistantMessage.text text)
          let reasoning :=
            match assistantMessage.reasoning with
            | some r => if r == "" then reasoning else some r
            | none => reasoning
          .ok { text := text.getD "", reasoning := reasoning, messages := some ms }

/-- Payload under the `message` key of a chunk or envelope. -/
structure MsgPayload where
  role : String
  content : String
  reasoning : Option String

/-- One NDJSON object written by the streaming responder. -/
structure Chunk where
  model : String
  created_at : String
  done : Bool
  message : Option MsgPayload
  response : Option String
  reasoning : Option String
  error : Option String

/-- A `done:false` chunk for one token delta (src/index.js:543-562). -/
def deltaChunk (responseKey modelName timestamp delta : String) : Chunk :=
  { model := modelName, created_at := timestamp, done := false,
    message := if responseKey == "message" then
      some { role := "assistant", content := delta, reasoning := none } else none,
    response := if responseKey == "response" then some delta else none,
    reasoning := none, error := none }

/-- The terminal `done:true` chunk on normal exhaustion
(src/index.js:564-590), with `reasoning` attached when the provider surfaced
a truthy one. -/
def finalChunk (responseKey modelName timestamp : String)
    (reasoning : Option String) : Chunk :=
  let base : Chunk :=
    { model := modelName, created_at := timestamp, done := true,
      message := if responseKey == "message" then
        some { role := "assistant", content := "", reasoning := none } else none,
      response := if responseKey == "response" then some "" else none,
      reasoning := none, error := none }
  match reasoning with
  | some r =>
    if r == "" then base
    else if responseKey == "message" then
      { base with message := base.message.map fun m => { m with reasoning := some r } }
    else
      { base with reasoning := some r }
  | none => base

/-- The terminal chunk written by the `catch` (src/index.js:593-606). -/
def errorChunk (modelName timestamp msg : String) : Chunk :=
  { model := modelName, created_at := timestamp, done := true,
    message := none, response := none, reasoning := none, error := some msg }

/-- How one run of the provider's token stream went: it either delivered all
deltas and completed (possibly surfacing `reasoning` at stream end), or it
threw after delivering a prefix of deltas (a throw by `streamText` itself is
`failure [] msg`). -/
inductive StreamOutcome where
  | success (deltas : List String) (reasoning : Option String)
  | failure (deltas : List String) (errMsg : String)

/-- `streamResponse` (src/index.js:511-607).  `Except.error` is the only
path on which no headers are written (the empty-prepared-messages guard
precedes `writeHead`), so the caller can still send a JSON error response;
`Except.ok chunks` means status-200 NDJSON headers were written followed by
exactly `chunks`, and the internal `catch` turns any upstream failure into a
terminal error chunk on the open stream rather than an HTTP error. -/
def streamResponse (responseKey modelName timestamp : String)
    (msgs : List Message) (outcome : StreamOutcome) : Except String (List Chunk) :=
  if (prepareMessages msgs).length == 0 then .error "No valid messages found"
  else
    .ok (match outcome with
      | .success deltas reasoning =>
        deltas.map (deltaChunk responseKey modelName timestamp) ++
          [finalChunk responseKey modelName timestamp reasoning]
      | .failure deltas m =>
        deltas.map (deltaChunk responseKey modelName timestamp) ++
          [errorChunk modelName timestamp m])

/-- The single JSON envelope of a non-streaming chat/generate reply
(src/index.js:628-658). -/
structure GenEnvelope where
  model : String
  created_at : String
  done : Bool
  message : Option MsgPayload
  response : Option String
  reasoning : Option String
  messages : Option (List UpstreamMsg)

/-- Assembling the non-streaming envelope (src/index.js:628-658). -/
def buildGenEnvelope (modelName timestamp responseKey : String)
    (r : GenResponse) : GenEnvelope :=
  let base : GenEnvelope :=
    { model := modelName, created_at := timestamp, done := true,
      message := if responseKey == "message" then
        some { role := "assistant", content := r.text, reasoning := none } else none,
      response := if responseKey == "response" then some r.text else none,
      reasoning := none, messages := r.messages }
  match r.reasoning with
  | some rs =>
    if rs == "" then base
    else if responseKey == "message" then
      { base with message := base.message.map fun m => { m with reasoning := some rs } }
    else
      { base with reasoning := some rs }
  | none => base

/-- What the chat/generate route handler sends back. -/
inductive GenOutcome where
  | errorJson (status : Nat) (msg : String)
  | okJson (env : GenEnvelope)
  | ndjson (chunks : List Chunk)

/-- `handleModelGenerationRequest` (src/index.js:610-678) after body parsing
and message extraction: validate the chat model, then stream or respond in
one shot; any error thrown before headers are sent is returned as a JSON
error with status 500 (src/index.js:664-665). -/
def handleModelGenerationRequest (chatModels : String → Option ModelConfig)
    (providers : String → Bool)
    (genText : GenerateCallArgs → List PreparedMsg → Except String GenTextResult)
    (streamOutcome : StreamOutcome) (modelName : String) (msgs : List Message)
    (o : GenOptions) (stream : Bool) (timestamp : String)
    (responseKey : String) : GenOutcome :=
  match validateChatModel chatModels providers modelName with
  | .error m => .errorJson 500 m
  | .ok modelConfig =>
    if stream then
      match streamResponse responseKey modelConfig.model timestamp msgs streamOutcome with
      | .error m => .errorJson 500 m
      | .ok chunks => .ndjson chunks
    else
      match generateResponse genText msgs o with
      | .error m => .errorJson 500 m
      | .ok result => .okJson (buildGenEnvelope modelName timestamp responseKey result)

/-! ### A fixed small deployment used by concrete witnesses -/

/-- A registry holding the one embedding model of the README example. -/
def em0 : String → Option ModelConfig := fun n =>
  if n == "text-embedding-004" then
    some { provider := "google", model := "text-embedding-004", type := "embedding" }
  else none

/-- A chat registry holding one model. -/
def cm0 : String → Option ModelConfig := fun n =>
  if n == "gemini-2.5-flash" then
    some { provider := "google", model := "gemini-2.5-flash", type := "chat" }
  else none

/-- Only the google provider is credentialed. -/
def prov0 : String → Bool := fun p => p == "google"

/-! ### Helper lemmas about the substring matcher and the classifier -/

theorem leadMatch_self_append (p rest : List Char) : leadMatch p (p ++ rest) = true := by
  induction p with
  | nil => rfl
  | cons c cs ih => simp [leadMatch, ih]

theorem subMatch_self_append (p l : List Char) : subMatch p (p ++ l) = true := by
  cases p with
  | nil =>
    cases l with
    | nil => rfl
    | cons c cs => simp [subMatch, leadMatch]
  | cons c cs =>
    have h2 := leadMatch_self_append (c :: cs) l
    rw [List.cons_append] at h2
    simp [subMatch, h2]

theorem subMatch_append_left (p l1 l2 : List Char) (h : subMatch p l2 = true) :
    subMatch p (l1 ++ l2) = true := by
  induction l1 with
  | nil => simpa using h
  | cons c cs ih => simp [subMatch, ih]

/-- If the classifier pattern occurs in the second summand of an appended
string, it occurs in the whole string. -/
theorem jsIncludes_append_right (a suff pat : String) (h : jsIncludes suff pat = true) :
    jsIncludes (a ++ suff) pat = true := by
  unfold jsIncludes at h ⊢
  rw [String.data_append]
  exact subMatch_append_left _ _ _ h

/-- Any message carrying one of the seven validation trigger substrings is
classified 400 with the message passed through verbatim. -/
theorem handleEmbeddingError_400 (msg : String)
    (h : jsIncludes msg "not supported" = true ∨ jsIncludes msg "not an embedding model" = true ∨
      jsIncludes msg "Missing required field" = true ∨ jsIncludes msg "must be" = true ∨
      jsIncludes msg "cannot be empty" = true ∨ jsIncludes msg "Too many" = true ∨
      jsIncludes msg "too long" = true) :
    handleEmbeddingError msg = (400, msg) := by
  unfold handleEmbeddingError
  rcases h with h | h | h | h | h | h | h <;> simp [h]

/-! ### Helper lemmas about the request validator -/

theorem finishValidation_ok (cfg : ModelConfig) (texts : List String) (pd : Bool)
    (val : ValidatedEmb) (h : finishValidation cfg texts pd = .ok val) :
    val = { modelConfig := cfg, inputTexts := texts,
            isSingleText := texts.length == 1 && pd } := by
  unfold finishValidation at h
  split at h
  · exact absurd h (by simp)
  · split at h
    · exact absurd h (by simp)
    · exact (Except.ok.inj h).symm

theorem parseInputs_ok_elem (i : Nat) (xs : List JVal) (texts : List String)
    (h : parseInputs i xs = .ok texts) :
    texts = xs.map fun x => match x with | .str s => jsTrim s | _ => "" := by
  induction xs generalizing i texts with
  | nil =>
    simp only [parseInputs] at h
    simpa using (Except.ok.inj h).symm
  | cons x xs ih =>
    unfold parseInputs at h
    match x with
    | .undef | .null | .num _ | .bool _ | .arr _ => exact absurd h (by simp)
    | .str s =>
      simp only at h
      split at h
      · exact absurd h (by simp)
      · match hrec : parseInputs (i + 1) xs with
        | .error m => rw [hrec] at h; exact absurd h (by simp)
        | .ok rest =>
          rw [hrec] at h
          have := (Except.ok.inj h).symm
          subst this
          simp [ih (i + 1) rest hrec]

theorem parseInputs_ok_length (i : Nat) (xs : List JVal) (texts : List String)
    (h : parseInputs i xs = .ok texts) : texts.length = xs.length := by
  rw [parseInputs_ok_elem i xs texts h]
  simp

/-- The `.ok` exits of `validateEmbeddingRequest`: which branch produced the
texts, and the shape of the returned record. -/
theorem validateEmbeddingRequest_ok (em : String → Option ModelConfig)
    (prov : String → Bool) (body : EmbBody) (val : ValidatedEmb)
    (h : validateEmbeddingRequest em prov body = .ok val) :
    (∃ name, body.model = some name ∧ (name == "") = false ∧
      validateEmbeddingModel em prov name = .ok val.modelConfig) ∧
    val.isSingleText = (val.inputTexts.length == 1 && !(body.prompt matches .undef)) ∧
    ((∃ p, body.prompt = .str p ∧ jvalTruthy body.prompt = true ∧
        val.inputTexts = [jsTrim p]) ∨
     (jvalTruthy body.prompt = false ∧ ∃ s, body.input = .str s ∧
        val.inputTexts = [jsTrim s]) ∨
     (jvalTruthy body.prompt = false ∧ ∃ xs, body.input = .arr xs ∧
        parseInputs 0 xs = .ok val.inputTexts)) ∧
    1 ≤ val.inputTexts.length ∧ val.inputTexts.length ≤ 100 := by
  unfold validateEmbeddingRequest at h
  match hm : body.model with
  | none => rw [hm] at h; exact absurd h (by simp)
  | some name =>
    rw [hm] at h
    simp only at h
    split at h
    · exact absurd h (by simp)
    · rename_i hname
      match hvm : validateEmbeddingModel em prov name with
      | .error m => rw [hvm] at h; exact absurd h (by simp)
      | .ok cfg =>
        rw [hvm] at h
        simp only at h
        have hfin : ∀ texts, finishValidation cfg texts (!(body.prompt matches .undef)) = .ok val →
            1 ≤ texts.length → val.modelConfig = cfg ∧ val.inputTexts = texts ∧
              val.isSingleText = (val.inputTexts.length == 1 && !(body.prompt matches .undef)) ∧
              1 ≤ val.inputTexts.length ∧ val.inputTexts.length ≤ 100 := by
          intro texts hok h1
          have hshape := finishValidation_ok _ _ _ _ hok
          have hle : texts.length ≤ 100 := by
            unfold finishValidation at hok
            split at hok
            · exact absurd hok (by simp)
            · omega
          subst hshape
          simp_all
        split at h
        · -- prompt truthy
          rename_i htr
          match hp : body.prompt with
          | .undef | .null | .num _ | .bool _ | .arr _ =>
            rw [hp] at h; exact absurd h (by simp)
          | .str p =>
            rw [hp] at h
            simp only at h
            split at h
            · exact absurd h (by simp)
            · rw [hp] at hfin htr
              obtain ⟨hcfg, htexts, hsingle, h1, h100⟩ := hfin [jsTrim p] h (by simp)
              exact ⟨⟨name, rfl, by simpa using hname, by rw [hvm, hcfg]⟩, hsingle,
                Or.inl ⟨p, rfl, htr, htexts⟩, h1, h100⟩
        · -- prompt falsy
          rename_i htr
          have htrf : jvalTruthy body.prompt = false := by
            revert htr; cases jvalTruthy body.prompt <;> simp
          split at h
          · -- input truthy
            match hi : body.input with
            | .undef | .null | .num _ | .bool _ =>
              rw [hi] at h; exact absurd h (by simp)
            | .arr xs =>
              rw [hi] at h
              simp only at h
              split at h
              · exact absurd h (by simp)
              · rename_i hlen
                match hpi : parseInputs 0 xs with
                | .error m => rw [hpi] at h; exact absurd h (by simp)
                | .ok texts =>
                  rw [hpi] at h
                  have h1 : 1 ≤ texts.length := by
                    rw [parseInputs_ok_length 0 xs texts hpi]
                    have hne : xs ≠ [] := by simpa using hlen
                    exact List.length_pos.mpr hne
                  obtain ⟨hcfg, htexts, hsingle, hl1, hl100⟩ := hfin texts h h1
                  exact ⟨⟨name, rfl, by simpa using hname, by rw [hvm, hcfg]⟩, hsingle,
                    Or.inr (Or.inr ⟨htrf, xs, rfl, by rw [hpi, htexts]⟩), hl1, hl100⟩
            | .str s =>
              rw [hi] at h
              simp only at h
              split at h
              · exact absurd h (by simp)
              · obtain ⟨hcfg, htexts, hsingle, hl1, hl100⟩ := hfin [jsTrim s] h (by simp)
                exact ⟨⟨name, rfl, by simpa using hname, by rw [hvm, hcfg]⟩, hsingle,
                  Or.inr (Or.inl ⟨htrf, s, rfl, htexts⟩), hl1, hl100⟩
          · exact absurd h (by simp)

theorem parseInputs_error_400 (i : Nat) (xs : List JVal) (m : String)
    (h : parseInputs i xs = .error m) : handleEmbeddingError m = (400, m) := by
  induction xs generalizing i with
  | nil => exact absurd h (by simp [parseInputs])
  | cons x xs ih =>
    unfold parseInputs at h
    match x with
    | .undef | .null | .num _ | .bool _ | .arr _ =>
      simp only at h
      have hm := (Except.error.inj h).symm
      subst hm
      exact handleEmbeddingError_400 _ (Or.inr (Or.inr (Or.inr (Or.inl
        (jsIncludes_append_right _ " must be a string" "must be" (by decide))))))
    | .str s =>
      simp only at h
      split at h
      · have hm := (Except.error.inj h).symm
        subst hm
        exact handleEmbeddingError_400 _ (Or.inr (Or.inr (Or.inr (Or.inr (Or.inl
          (jsIncludes_append_right _ " cannot be empty" "cannot be empty" (by decide)))))))
      · match hrec : parseInputs (i + 1) xs with
        | .error m2 =>
          rw [hrec] at h
          have hm := Except.error.inj h
          subst hm
          exact ih (i + 1) hrec
        | .ok rest => rw [hrec] at h; exact absurd h (by simp)

theorem checkLengths_error_400 (i : Nat) (ts : List String) (m : String)
    (h : checkLengths i ts = .error m) : handleEmbeddingError m = (400, m) := by
  induction ts generalizing i with
  | nil => exact absurd h (by simp [checkLengths])
  | cons t ts ih =>
    unfold checkLengths at h
    split at h
    · have hm := (Except.error.inj h).symm
      subst hm
      exact handleEmbeddingError_400 _ (Or.inr (Or.inr (Or.inr (Or.inr (Or.inr (Or.inr
        (jsIncludes_append_right _ " is too long. Maximum length: 10000 characters"
          "too long" (by decide))))))))
    · exact ih (i + 1) h

theorem finishValidation_error_400 (cfg : ModelConfig) (texts : List String) (pd : Bool)
    (m : String) (h : finishValidation cfg texts pd = .error m) :
    handleEmbeddingError m = (400, m) := by
  unfold finishValidation at h
  split at h
  · have hm := (Except.error.inj h).symm
    subst hm
    exact handleEmbeddingError_400 _ (Or.inr (Or.inr (Or.inr (Or.inr (Or.inr (Or.inl
      (by decide)))))))
  · match hc : checkLengths 0 texts with
    | .error m2 =>
      rw [hc] at h
      have hm := Except.error.inj h
      subst hm
      exact checkLengths_error_400 0 texts m2 hc
    | .ok _ => rw [hc] at h; exact absurd h (by simp)

theorem validateEmbeddingModel_error_400 (em : String → Option ModelConfig)
    (prov : String → Bool) (name : String) (m : String)
    (hreg : ∀ c, em name = some c → prov c.provider = true)
    (h : validateEmbeddingModel em prov name = .error m) :
    handleEmbeddingError m = (400, m) := by
  unfold validateEmbeddingModel at h
  match hl : em name with
  | none =>
    rw [hl] at h
    have hm := (Except.error.inj h).symm
    subst hm
    exact handleEmbeddingError_400 _ (Or.inl
      (jsIncludes_append_right _ " not supported" "not supported" (by decide)))
  | some cfg =>
    rw [hl] at h
    simp only at h
    rw [hreg cfg hl] at h
    simp only [Bool.not_true, Bool.false_eq_true, if_false, reduceIte] at h
    split at h
    · have hm := (Except.error.inj h).symm
      subst hm
      exact handleEmbeddingError_400 _ (Or.inr (Or.inl
        (jsIncludes_append_right _ " is not an embedding model"
          "not an embedding model" (by decide))))
    · exact absurd h (by simp)

theorem validateEmbeddingRequest_error_400 (em : String → Option ModelConfig)
    (prov : String → Bool) (body : EmbBody) (m : String)
    (hreg : ∀ n c, em n = some c → prov c.provider = true)
    (h : validateEmbeddingRequest em prov body = .error m) :
    handleEmbeddingError m = (400, m) := by
  unfold validateEmbeddingRequest at h
  match hm0 : body.model with
  | none =>
    rw [hm0] at h
    have hm := (Except.error.inj h).symm
    subst hm
    exact handleEmbeddingError_400 _ (Or.inr (Or.inr (Or.inl (by decide))))
  | some name =>
    rw [hm0] at h
    simp only at h
    split at h
    · have hm := (Except.error.inj h).symm
      subst hm
      exact handleEmbeddingError_400 _ (Or.inr (Or.inr (Or.inl (by decide))))
    · match hvm : validateEmbeddingModel em prov name with
      | .error m2 =>
        rw [hvm] at h
        have hm := Except.error.inj h
        subst hm
        exact validateEmbeddingModel_error_400 em prov name m2 (hreg name) hvm
      | .ok cfg =>
        rw [hvm] at h
        simp only at h
        split at h
        · match hp : body.prompt with
          | .undef | .null | .num _ | .bool _ | .arr _ =>
            rw [hp] at h
            simp only at h
            have hm := (Except.error.inj h).symm
            subst hm
            exact handleEmbeddingError_400 _ (Or.inr (Or.inr (Or.inr (Or.inl (by decide)))))
          | .str p =>
            rw [hp] at h
            simp only at h
            split at h
            · have hm := (Except.error.inj h).symm
              subst hm
              exact handleEmbeddingError_400 _ (Or.inr (Or.inr (Or.inr (Or.inl (by decide)))))
            · exact finishValidation_error_400 _ _ _ _ h
        · split at h
          · match hi : body.input with
            | .undef | .null | .num _ | .bool _ =>
              rw [hi] at h
              simp only at h
              have hm := (Except.error.inj h).symm
              subst hm
              exact handleEmbeddingError_400 _ (Or.inr (Or.inr (Or.inr (Or.inl (by decide)))))
            | .arr xs =>
              rw [hi] at h
              simp only at h
              split at h
              · have hm := (Except.error.inj h).symm
                subst hm
                exact handleEmbeddingError_400 _ (Or.inr (Or.inr (Or.inr (Or.inr (Or.inl
                  (by decide))))))
              · match hpi : parseInputs 0 xs with
                | .error m2 =>
                  rw [hpi] at h
                  have hm := Except.error.inj h
                  subst hm
                  exact parseInputs_error_400 0 xs m2 hpi
                | .ok texts =>
                  rw [hpi] at h
                  exact finishValidation_error_400 _ _ _ _ h
            | .str s =>
              rw [hi] at h
              simp only at h
              split at h
              · have hm := (Except.error.inj h).symm
                subst hm
                exact handleEmbeddingError_400 _ (Or.inr (Or.inr (Or.inr (Or.inr (Or.inl
                  (by decide))))))
              · exact finishValidation_error_400 _ _ _ _ h
          · have hm := (Except.error.inj h).symm
            subst hm
            exact handleEmbeddingError_400 _ (Or.inr (Or.inr (Or.inl
              (jsIncludes_append_right "" "Missing required field: either \"prompt\" or \"input\" must be provided" "Missing required field" (by decide)))))

/-! ### Claim theorems -/

/-- C9: for every embedding request whose resolved model configuration has a
provider other than `google`, `generateEmbeddings` fails before issuing any
upstream call (empty call trace) with the only-Google message, so no vectors
are ever produced for openai- or openrouter-configured embedding models. -/
theorem non_google_embedding_rejected (hasKey : Bool) (cfg : ModelConfig)
    (upstream : Nat → String → FetchResult) (texts : List String)
    (h : cfg.provider ≠ "google") :
    generateEmbeddings hasKey cfg upstream texts =
      ([], .error ("Only Google embedding models are currently supported, got: " ++
        cfg.provider)) := by
  have hb : (cfg.provider == "google") = false := by
    simpa using h
  unfold generateEmbeddings
  rw [hb]
  simp [bne, hb]

/-- Witness for C9 at a concrete openai-configured embedding model. -/
theorem non_google_embedding_rejected_witness :
    generateEmbeddings true { provider := "openai", model := "text-embedding-3-small", type := "embedding" }
      (fun _ _ => .ok (some [1])) ["x"] =
      ([], .error ("Only Google embedding models are currently supported, got: " ++
        "openai")) :=
  non_google_embedding_rejected true _ _ _ (by decide)

/-- C8 counterexample: a client that supplies no `num_predict` at all has
`maxTokens = 32768` forwarded by the non-streaming call, not an absent
value, contradicting "equals exactly the num_predict value supplied by the
client (or is absent when the client supplied none)". -/
theorem num_predict_default_counterexample :
    (generateCallArgs { temperature := .undef, num_predict := .undef, top_p := .undef }).maxTokens =
      .num 32768 ∧
    ({ temperature := .undef, num_predict := .undef, top_p := .undef : GenOptions }).num_predict =
      .undef ∧
    JVal.num 32768 ≠ JVal.undef :=
  ⟨rfl, rfl, fun h => JVal.noConfusion h⟩

/-- C8 amended: temperature and top-p are forwarded unmodified by both the
non-streaming and the streaming call; the streaming call forwards
`num_predict` unmodified as well, while the non-streaming call forwards
`num_predict` only when it is truthy (present and non-zero) and otherwise
substitutes the default 32768. -/
theorem options_forwarding (o : GenOptions) :
    (generateCallArgs o).temperature = o.temperature ∧
    (generateCallArgs o).topP = o.top_p ∧
    (jvalTruthy o.num_predict = true → (generateCallArgs o).maxTokens = o.num_predict) ∧
    (jvalTruthy o.num_predict = false → (generateCallArgs o).maxTokens = .num 32768) ∧
    streamCallArgs o =
      { temperature := o.temperature, maxTokens := o.num_predict, topP := o.top_p } := by
  refine ⟨rfl, rfl, fun h => ?_, fun h => ?_, rfl⟩
  · simp [generateCallArgs, h]
  · simp [generateCallArgs, h]

/-- Witness for C8's amended statement at a concrete supplied `num_predict`. -/
theorem options_forwarding_witness :
    (generateCallArgs { temperature := .num 1, num_predict := .num 256, top_p := .num 1 }).maxTokens =
      .num 256 ∧
    (generateCallArgs { temperature := .num 1, num_predict := .undef, top_p := .num 1 }).maxTokens =
      .num 32768 :=
  ⟨(options_forwarding { temperature := .num 1, num_predict := .num 256, top_p := .num 1 }).2.2.1 rfl,
   (options_forwarding { temperature := .num 1, num_predict := .undef, top_p := .num 1 }).2.2.2.1 rfl⟩

/-- The drop predicate exactly as C10 words it: the message content is
missing or empty after trimming. -/
def specBlank (m : Message) : Bool := jsTrim (m.content.getD "") == ""

/-- The normalization exactly as C10 words it: role collapses to
`assistant` for exactly the role `assistant` and to `user` otherwise, and
the content is the trimmed content. -/
def specNormalize (m : Message) : PreparedMsg :=
  { role := if m.role == "assistant" then "assistant" else "user",
    content := jsTrim (m.content.getD "") }

/-- C10: `prepareMessages` keeps exactly the messages whose content is
present and non-empty after trimming, maps every surviving role to
`assistant` iff it was exactly `assistant` and to `user` otherwise (so e.g.
`system` goes upstream as `user`), and trims the surviving content. -/
theorem prepareMessages_spec (msgs : List Message) :
    prepareMessages msgs = (msgs.filter fun m => !(specBlank m)).map specNormalize := by
  unfold prepareMessages specNormalize
  congr 1
  apply List.filter_congr
  intro m _
  unfold specBlank
  match hc : m.content with
  | none => rfl
  | some s =>
    simp only [Option.getD_some]
    by_cases hse : s = ""
    · subst hse; rfl
    · have h1 : (s != "") = true := by simpa using hse
      rw [h1]
      cases hq : jsTrim s == "" <;> simp [hq] <;> simpa using hq

/-- A `JVal` matches the `undefined` pattern exactly when it is `undef`. -/
theorem matches_undef_iff (v : JVal) : (v matches JVal.undef) = true ↔ v = JVal.undef := by
  cases v <;> simp

/-- C2 counterexample: the accepted body `{model, prompt: "", input: ["x"]}`
takes its single text from the `input` field (the empty `prompt` is falsy
and contributes nothing), yet `isSingleText` comes out `true`, because the
code tests `body.prompt !== undefined` instead of which field supplied the
text; the envelope will therefore use the `embedding` key although the
input came through `input`. -/
theorem isSingleText_counterexample :
    validateEmbeddingRequest em0 prov0
      { model := some "text-embedding-004", prompt := .str "", input := .arr [.str "x"] } =
      .ok { modelConfig := { provider := "google", model := "text-embedding-004",
                             type := "embedding" },
            inputTexts := ["x"], isSingleText := true } ∧
    jvalTruthy (JVal.str "") = false :=
  ⟨rfl, rfl⟩

/-- C2 amended: for every accepted embedding request, `isSingleText` is true
iff exactly one input text was produced and the body's `prompt` field was
present (not `undefined`) — whatever field the text actually came from —
and the assembled envelope omits the `embeddings` array (using the single
`embedding` key) exactly when `isSingleText` is true. -/
theorem isSingleText_characterization (em : String → Option ModelConfig)
    (prov : String → Bool) (body : EmbBody) (val : ValidatedEmb)
    (h : validateEmbeddingRequest em prov body = .ok val) :
    (val.isSingleText = true ↔ (val.inputTexts.length = 1 ∧ body.prompt ≠ JVal.undef)) ∧
    (∀ er mn ts, (formatEmbeddingResponse er mn val.isSingleText ts).embeddings.isNone =
      val.isSingleText) := by
  obtain ⟨-, hsingle, -, -, -⟩ := validateEmbeddingRequest_ok em prov body val h
  constructor
  · rw [hsingle]
    constructor
    · intro hb
      have := Bool.and_eq_true_iff.mp hb
      refine ⟨by simpa using this.1, fun he => ?_⟩
      have h2 := this.2
      rw [he] at h2
      simp at h2
    · rintro ⟨h1, h2⟩
      have hb1 : (val.inputTexts.length == 1) = true := by simpa using h1
      have hb2 : (body.prompt matches JVal.undef) = false := by
        cases hm : (body.prompt matches JVal.undef) with
        | false => rfl
        | true => exact absurd ((matches_undef_iff body.prompt).mp hm) h2
      rw [hb1, hb2]
      rfl
  · intro er mn ts
    cases val.isSingleText <;> simp [formatEmbeddingResponse]

/-- Witness for C2's amended statement at a concrete `input`-sourced body. -/
theorem isSingleText_characterization_witness :
    (false = true ↔ ((["hi"] : List String).length = 1 ∧ JVal.undef ≠ JVal.undef)) ∧
    (∀ er mn ts, (formatEmbeddingResponse er mn false ts).embeddings.isNone = false) :=
  isSingleText_characterization em0 prov0
    { model := some "text-embedding-004", prompt := .undef, input := .str "hi" }
    { modelConfig := { provider := "google", model := "text-embedding-004",
                       type := "embedding" },
      inputTexts := ["hi"], isSingleText := false } rfl

/-- C5 counterexample: on the chat endpoint the validation/shape error
"unsupported model" is answered with HTTP status 500 (src/index.js:665), not
400 as the claim states for every endpoint. -/
theorem chat_validation_error_500 :
    handleModelGenerationRequest cm0 prov0 (fun _ _ => .error "unused")
      (.success [] none) "nope" [{ role := "user", content := some "hi" }]
      { temperature := .undef, num_predict := .undef, top_p := .undef }
      false "ts" "message" =
      .errorJson 500 "Chat model nope not supported" :=
  rfl

/-- C5 amended: on the embeddings endpoint every validation/shape failure
(missing field, wrong type, empty, too long, too many, unsupported model,
wrong kind) is answered with HTTP 400 and the original message verbatim
(assuming, as `loadModels` guarantees, that every registered embedding
model's provider is credentialed); on the chat and generate endpoints a
chat-model validation failure is instead answered with HTTP 500, with the
message still passed through verbatim. -/
theorem validation_error_classification (em cm : String → Option ModelConfig)
    (prov : String → Bool) (body : EmbBody) (hasKey : Bool)
    (upstream : Nat → String → FetchResult)
    (genText : GenerateCallArgs → List PreparedMsg → Except String GenTextResult)
    (so : StreamOutcome) (mn : String) (msgs : List Message) (o : GenOptions)
    (stream : Bool) (ts key m m2 : String)
    (hreg : ∀ n c, em n = some c → prov c.provider = true)
    (hemb : validateEmbeddingRequest em prov body = .error m)
    (hchat : validateChatModel cm prov mn = .error m2) :
    handleEmbeddingError m = (400, m) ∧
    postEmbeddings em prov hasKey upstream ts body = ([], .failure 400 m) ∧
    handleModelGenerationRequest cm prov genText so mn msgs o stream ts key =
      .errorJson 500 m2 := by
  have h400 := validateEmbeddingRequest_error_400 em prov body m hreg hemb
  refine ⟨h400, ?_, ?_⟩
  · unfold postEmbeddings
    rw [hemb]
    dsimp only
    rw [h400]
  · unfold handleModelGenerationRequest
    rw [hchat]

/-- Witness for C5's amended statement: a missing `model` field on the
embeddings endpoint and an unknown chat model on the chat endpoint. -/
theorem validation_error_classification_witness :
    handleEmbeddingError "Missing required field: model" =
      (400, "Missing required field: model") ∧
    postEmbeddings em0 prov0 true (fun _ _ => .ok (some [1])) "ts"
      { model := none, prompt := .str "x", input := .undef } =
      ([], .failure 400 "Missing required field: model") ∧
    handleModelGenerationRequest cm0 prov0 (fun _ _ => .error "unused")
      (.success [] none) "ghost" []
      { temperature := .undef, num_predict := .undef, top_p := .undef }
      false "ts" "message" =
      .errorJson 500 "Chat model ghost not supported" :=
  validation_error_classification em0 cm0 prov0
    { model := none, prompt := .str "x", input := .undef } true
    (fun _ _ => .ok (some [1])) (fun _ _ => .error "unused") (.success [] none)
    "ghost" [] { temperature := .undef, num_predict := .undef, top_p := .undef }
    false "ts" "message" "Missing required field: model" "Chat model ghost not supported"
    (fun n c hc => by
      unfold em0 at hc
      split at hc
      · cases Option.some.inj hc
        rfl
      · exact absurd hc (by simp))
    rfl rfl

/-! ### C3: shape of a streamed NDJSON connection -/

theorem deltaChunk_done (k mn ts d : String) : (deltaChunk k mn ts d).done = false := rfl

theorem finalChunk_done (k mn ts : String) (r : Option String) :
    (finalChunk k mn ts r).done = true := by
  unfold finalChunk
  cases r with
  | none => rfl
  | some s =>
    dsimp only
    split
    · rfl
    · split <;> rfl

theorem finalChunk_props (k mn ts : String) (r : Option String) :
    (finalChunk k mn ts r).error = none ∧
    (finalChunk k mn ts r).message.all (fun mp => mp.content == "") = true ∧
    (finalChunk k mn ts r).response.all (fun s => s == "") = true := by
  unfold finalChunk
  cases r with
  | none =>
    dsimp only
    refine ⟨rfl, ?_, ?_⟩ <;> (cases hk : k == "message" <;> cases hk2 : k == "response" <;>
      simp [hk, hk2, Option.all])
  | some s =>
    dsimp only
    split
    · refine ⟨rfl, ?_, ?_⟩ <;> (cases hk : k == "message" <;> cases hk2 : k == "response" <;>
        simp [hk, hk2, Option.all])
    · split
      · rename_i hmsg
        refine ⟨rfl, ?_, ?_⟩ <;> (cases hk2 : k == "response" <;>
          simp [hmsg, hk2, Option.all, Option.map])
      · rename_i hmsg
        have hmf : (k == "message") = false := by
          cases hq : k == "message"
          · rfl
          · exact absurd hq hmsg
        refine ⟨rfl, ?_, ?_⟩ <;> (cases hk2 : k == "response" <;>
          simp [hmf, hk2, Option.all])

theorem delta_filter_done (k mn ts : String) (ds : List String) :
    ((ds.map (deltaChunk k mn ts)).filter fun c => c.done) = [] := by
  induction ds with
  | nil => rfl
  | cons d ds ih => simp [List.filter, deltaChunk, ih]

/-- C3: once the NDJSON headers are written (`streamResponse` returned
`.ok`), the emitted object sequence contains exactly one `done:true` object,
it is the last one, all preceding objects have `done:false`; on normal
exhaustion the terminal object has empty content and no `error` field, and
when the upstream call throws after streaming has begun the terminal object
instead carries the failure message under `error` (and no `message` /
`response` payload) — no HTTP-level error response is attempted, the error
travels inside the already-open stream. -/
theorem stream_terminal_chunk (key mn ts : String) (msgs : List Message)
    (outcome : StreamOutcome) (chunks : List Chunk)
    (h : streamResponse key mn ts msgs outcome = .ok chunks) :
    (chunks.filter fun c => c.done).length = 1 ∧
    (∀ c ∈ chunks.dropLast, c.done = false) ∧
    ∃ last, chunks.getLast? = some last ∧ last.done = true ∧
      (∀ ds r, outcome = .success ds r →
        last.error = none ∧ last.message.all (fun mp => mp.content == "") = true ∧
        last.response.all (fun s => s == "") = true) ∧
      (∀ ds em, outcome = .failure ds em →
        last.error = some em ∧ last.message = none ∧ last.response = none) := by
  unfold streamResponse at h
  split at h
  · exact absurd h (by simp)
  · cases outcome with
    | success deltas reasoning =>
      have hc := (Except.ok.inj h).symm
      subst hc
      refine ⟨?_, ?_, finalChunk key mn ts reasoning, ?_, finalChunk_done key mn ts reasoning,
        ?_, ?_⟩
      · rw [List.filter_append, delta_filter_done]
        simp [List.filter, finalChunk_done key mn ts reasoning]
      · intro c hc
        rw [List.dropLast_concat] at hc
        obtain ⟨d, -, hd⟩ := List.mem_map.mp hc
        rw [← hd]
        rfl
      · exact List.getLast?_concat _
      · intro ds r _
        exact ⟨(finalChunk_props key mn ts reasoning).1,
          (finalChunk_props key mn ts reasoning).2.1,
          (finalChunk_props key mn ts reasoning).2.2⟩
      · intro ds em heq
        exact absurd heq (by simp)
    | failure deltas em =>
      have hc := (Except.ok.inj h).symm
      subst hc
      refine ⟨?_, ?_, errorChunk mn ts em, ?_, rfl, ?_, ?_⟩
      · rw [List.filter_append, delta_filter_done]
        simp [List.filter, errorChunk]
      · intro c hc
        rw [List.dropLast_concat] at hc
        obtain ⟨d, -, hd⟩ := List.mem_map.mp hc
        rw [← hd]
        rfl
      · exact List.getLast?_concat _
      · intro ds r heq
        exact absurd heq (by simp)
      · intro ds em2 heq
        have h1 := (StreamOutcome.failure.inj heq).2
        subst h1
        exact ⟨rfl, rfl, rfl⟩

/-- The concrete chunk list of the C3 witness run. -/
def streamChunksOkW : List Chunk :=
  [{ model := "m", created_at := "t", done := false,
     message := some { role := "assistant", content := "He", reasoning := none },
     response := none, reasoning := none, error := none },
   { model := "m", created_at := "t", done := false,
     message := some { role := "assistant", content := "llo", reasoning := none },
     response := none, reasoning := none, error := none },
   { model := "m", created_at := "t", done := true,
     message := some { role := "assistant", content := "", reasoning := none },
     response := none, reasoning := none, error := none }]

/-- Witness for C3: a two-delta stream, and a stream that fails after one
delta, on the `message`-keyed chat endpoint. -/
theorem stream_terminal_chunk_witness :
    (((streamChunksOkW).filter fun c => c.done).length = 1 ∧
      (∀ c ∈ (streamChunksOkW).dropLast, c.done = false) ∧
      ∃ last, (streamChunksOkW).getLast? = some last ∧ last.done = true ∧
        (∀ ds r, (StreamOutcome.success ["He", "llo"] none) = .success ds r →
          last.error = none ∧ last.message.all (fun mp => mp.content == "") = true ∧
          last.response.all (fun s => s == "") = true) ∧
        (∀ ds em, (StreamOutcome.success ["He", "llo"] none) = .failure ds em →
          last.error = some em ∧ last.message = none ∧ last.response = none)) :=
  stream_terminal_chunk "message" "m" "t" [{ role := "user", content := some "hi" }]
    (.success ["He", "llo"] none) streamChunksOkW rfl

/-! ### Lemmas about the sequential embedding loop -/

theorem generateEmbeddings_google (cfg : ModelConfig)
    (upstream : Nat → String → FetchResult) (texts : List String)
    (h : cfg.provider = "google") :
    generateEmbeddings true cfg upstream texts =
      (match generateEmbeddingsLoop upstream 0 texts with
       | (tr, .error m) => (tr, .error m)
       | (tr, .ok embeddings) =>
         (tr, .ok { embeddings := embeddings, model := cfg.model,
                    dimensions := (embeddings.headD []).length })) := by
  unfold generateEmbeddings
  rw [h]
  simp [bne]

theorem loop_all_ok (upstream : Nat → String → FetchResult) (v : Nat → List Int)
    (ts : List String) : ∀ (k : Nat),
    (∀ j (hj : j < ts.length),
      embedItemResult (k + j) (upstream (k + j) (ts.get ⟨j, hj⟩)) = .ok (v (k + j))) →
    generateEmbeddingsLoop upstream k ts =
      (List.range' k ts.length, .ok ((List.range' k ts.length).map v)) := by
  induction ts with
  | nil => intro k _; rfl
  | cons t ts ih =>
    intro k h
    have h0 : embedItemResult k (upstream k t) = .ok (v k) := h 0 (by simp)
    have hsh : ∀ j (hj : j < ts.length),
        embedItemResult ((k + 1) + j) (upstream ((k + 1) + j) (ts.get ⟨j, hj⟩)) =
          .ok (v ((k + 1) + j)) := by
      intro j hj
      have h2 := h (j + 1) (Nat.succ_lt_succ hj)
      have hidx : k + (j + 1) = (k + 1) + j := by omega
      rw [hidx] at h2
      exact h2
    unfold generateEmbeddingsLoop
    rw [h0, ih (k + 1) hsh]
    rw [show (t :: ts).length = ts.length + 1 from rfl, List.range'_succ]
    rfl

theorem loop_first_fail (upstream : Nat → String → FetchResult) (m : String)
    (ts : List String) : ∀ (s k : Nat) (hk : k < ts.length),
    (∀ j (hj : j < ts.length), j < k →
      ∃ w, embedItemResult (s + j) (upstream (s + j) (ts.get ⟨j, hj⟩)) = .ok w) →
    embedItemResult (s + k) (upstream (s + k) (ts.get ⟨k, hk⟩)) = .error m →
    generateEmbeddingsLoop upstream s ts = (List.range' s (k + 1), .error m) := by
  induction ts with
  | nil => intro s k hk; exact absurd hk (by simp)
  | cons t ts ih =>
    intro s k hk hpre hfail
    match k with
    | 0 =>
      have h0 : embedItemResult s (upstream s t) = .error m := hfail
      unfold generateEmbeddingsLoop
      rw [h0]
      rfl
    | k + 1 =>
      obtain ⟨w, hw⟩ := hpre 0 (by simp) (Nat.succ_pos k)
      have h0 : embedItemResult s (upstream s t) = .ok w := hw
      have hsh : ∀ j (hj : j < ts.length), j < k →
          ∃ w2, embedItemResult ((s + 1) + j) (upstream ((s + 1) + j) (ts.get ⟨j, hj⟩)) =
            .ok w2 := by
        intro j hj hjk
        obtain ⟨w2, hw2⟩ := hpre (j + 1) (Nat.succ_lt_succ hj) (Nat.succ_lt_succ hjk)
        have hidx : s + (j + 1) = (s + 1) + j := by omega
        rw [hidx] at hw2
        exact ⟨w2, hw2⟩
      have hk2 : k < ts.length := Nat.lt_of_succ_lt_succ hk
      have hfail2 : embedItemResult ((s + 1) + k) (upstream ((s + 1) + k) (ts.get ⟨k, hk2⟩)) =
          .error m := by
        have hidx : s + (k + 1) = (s + 1) + k := by omega
        rw [hidx] at hfail
        exact hfail
      unfold generateEmbeddingsLoop
      rw [h0, ih (s + 1) k hk2 hsh hfail2]
      rw [List.range'_succ]
      rfl

/-! ### Lemmas about the envelope re-validation -/

theorem checkEmbObjs_ok (objs : List EmbObj) : ∀ (i : Nat),
    (∀ o ∈ objs, ∃ w, o.embedding = some w ∧ w ≠ []) →
    checkEmbObjs i objs = .ok () := by
  induction objs with
  | nil => intro i _; rfl
  | cons o os ih =>
    intro i h
    obtain ⟨w, hw, hne⟩ := h o (by simp)
    unfold checkEmbObjs
    rw [hw]
    dsimp only
    have hl : (w.length == 0) = false := by
      simp [hne]
    rw [hl]
    simp only [Bool.false_eq_true, if_false, reduceIte]
    exact ih (i + 1) fun o2 ho2 => h o2 (by simp [ho2])

theorem checkEmbObjs_ok_inv (objs : List EmbObj) : ∀ (i : Nat),
    checkEmbObjs i objs = .ok () →
    ∀ o ∈ objs, ∃ w, o.embedding = some w ∧ w ≠ [] := by
  induction objs with
  | nil => intro i _ o ho; exact absurd ho (by simp)
  | cons o2 os ih =>
    intro i h o ho
    unfold checkEmbObjs at h
    match he : o2.embedding with
    | none => rw [he] at h; exact absurd h (by simp)
    | some w =>
      rw [he] at h
      dsimp only at h
      split at h
      · exact absurd h (by simp)
      · rename_i hlen
        rcases List.mem_cons.mp ho with hh | ht
        · subst hh
          refine ⟨w, he, ?_⟩
          intro hnil
          rw [hnil] at hlen
          exact hlen rfl
        · exact ih (i + 1) h o ht

theorem checkEnvelopeFields_ok_inv (r : EmbResponse) (b : Bool)
    (h : checkEnvelopeFields r = .ok b) :
    b = true ∧ jvalTruthy r.model = true ∧ jvalIsStr r.model = true ∧
    jvalTruthy r.created_at = true ∧ jvalIsStr r.created_at = true := by
  unfold checkEnvelopeFields at h
  split at h
  · exact absurd h (by simp)
  · rename_i h1
    split at h
    · exact absurd h (by simp)
    · rename_i h2
      have hb : b = true := (Except.ok.inj h).symm
      simp only [Bool.or_eq_true, Bool.not_eq_true', not_or] at h1 h2
      exact ⟨hb, by simpa using h1.1, by simpa using h1.2, by simpa using h2.1,
        by simpa using h2.2⟩

/-- Everything a passed second validation guarantees about the envelope. -/
theorem validateEmbeddingResponse_ok_inv (r : EmbResponse) (n : Nat) (b : Bool)
    (h : validateEmbeddingResponse r n = .ok b) :
    b = true ∧ (responseVectors r).length = n ∧ (∀ w ∈ responseVectors r, w ≠ []) ∧
    jvalTruthy r.model = true ∧ jvalIsStr r.model = true ∧
    jvalTruthy r.created_at = true ∧ jvalIsStr r.created_at = true := by
  unfold validateEmbeddingResponse at h
  match he : r.embedding with
  | some v =>
    rw [he] at h
    dsimp only at h
    split at h
    · exact absurd h (by simp)
    · rename_i hlen
      split at h
      · exact absurd h (by simp)
      · rename_i hn
        obtain ⟨hb, hf⟩ := checkEnvelopeFields_ok_inv r b h
        have hn1 : n = 1 := by
          simpa using hn
        have hvec : responseVectors r = [v] := by
          unfold responseVectors
          rw [he]
        refine ⟨hb, ?_, ?_, hf.1, hf.2.1, hf.2.2.1, hf.2.2.2⟩
        · rw [hvec, hn1]
          rfl
        · intro w hw
          rw [hvec] at hw
          have hwv : w = v := by simpa using hw
          subst hwv
          intro hnil
          rw [hnil] at hlen
          exact hlen rfl
  | none =>
    rw [he] at h
    match hes : r.embeddings with
    | none => rw [hes] at h; exact absurd h (by simp)
    | some objs =>
      rw [hes] at h
      dsimp only at h
      split at h
      · exact absurd h (by simp)
      · rename_i hlen
        match hco : checkEmbObjs 0 objs with
        | .error m => rw [hco] at h; exact absurd h (by simp)
        | .ok _ =>
          rw [hco] at h
          obtain ⟨hb, hf⟩ := checkEnvelopeFields_ok_inv r b h
          have hvec : responseVectors r = objs.map fun o => o.embedding.getD [] := by
            unfold responseVectors
            rw [he, hes]
          have hn : objs.length = n := by
            simpa using hlen
          refine ⟨hb, ?_, ?_, hf.1, hf.2.1, hf.2.2.1, hf.2.2.2⟩
          · rw [hvec, List.length_map]
            exact hn
          · intro w hw
            rw [hvec] at hw
            obtain ⟨o, ho, hwo⟩ := List.mem_map.mp hw
            obtain ⟨w2, hw2, hne⟩ := checkEmbObjs_ok_inv objs 0 hco o ho
            rw [← hwo, hw2]
            simpa using hne

/-- A batch-shaped envelope with non-empty vectors and string-typed
`model`/`created_at` passes the second validation. -/
theorem validate_batch_envelope (es : List (List Int)) (mn ts : String)
    (hmn : mn ≠ "") (hts : ts ≠ "") (hne : ∀ w ∈ es, w ≠ []) :
    validateEmbeddingResponse
      { embedding := none, embeddings := some (es.map fun e => { embedding := some e }),
        model := .str mn, created_at := .str ts } es.length = .ok true := by
  unfold validateEmbeddingResponse
  dsimp only
  have hlen : ((es.map fun e => EmbObj.mk (some e)).length != es.length) = false := by
    simp
  rw [hlen]
  simp only [Bool.false_eq_true, reduceIte]
  have hobjs : checkEmbObjs 0 (es.map fun e => EmbObj.mk (some e)) = .ok () := by
    apply checkEmbObjs_ok
    intro o ho
    obtain ⟨e, he, heo⟩ := List.mem_map.mp ho
    exact ⟨e, by rw [← heo], hne e he⟩
  rw [hobjs]
  unfold checkEnvelopeFields
  simp [jvalTruthy, jvalIsStr, hmn, hts]

/-- A single-shaped envelope with a non-empty vector and string-typed
`model`/`created_at` passes the second validation with expected count 1. -/
theorem validate_single_envelope (w : List Int) (mn ts : String)
    (hmn : mn ≠ "") (hts : ts ≠ "") (hw : w ≠ []) :
    validateEmbeddingResponse
      { embedding := some w, embeddings := none, model := .str mn, created_at := .str ts }
      1 = .ok true := by
  unfold validateEmbeddingResponse
  dsimp only
  have hlen : (w.length == 0) = false := by
    simp [hw]
  rw [hlen]
  simp only [Bool.false_eq_true, reduceIte]
  have h1 : ((1 : Nat) != 1) = false := by decide
  rw [h1]
  simp only [Bool.false_eq_true, reduceIte]
  unfold checkEnvelopeFields
  simp [jvalTruthy, jvalIsStr, hmn, hts]

/-- C6: whenever the embeddings endpoint sends a success, the envelope it
sends has passed the second validation, whose guarantees hold of it: the
vector list is non-empty, every vector is non-empty, the vector count equals
the validated input count, and `model` and `created_at` are present and
string-typed. -/
theorem embedding_success_revalidated (em : String → Option ModelConfig)
    (prov : String → Bool) (hasKey : Bool) (upstream : Nat → String → FetchResult)
    (ts : String) (body : EmbBody) (tr : List Nat) (resp : EmbResponse)
    (val : ValidatedEmb)
    (h : postEmbeddings em prov hasKey upstream ts body = (tr, .success resp))
    (hval : validateEmbeddingRequest em prov body = .ok val) :
    validateEmbeddingResponse resp val.inputTexts.length = .ok true ∧
    (responseVectors resp).length = val.inputTexts.length ∧
    responseVectors resp ≠ [] ∧
    (∀ w ∈ responseVectors resp, w ≠ []) ∧
    jvalIsStr resp.model = true ∧ jvalIsStr resp.created_at = true := by
  unfold postEmbeddings at h
  rw [hval] at h
  dsimp only at h
  match hg : generateEmbeddings hasKey val.modelConfig upstream val.inputTexts with
  | (tr2, .error m) =>
    rw [hg] at h
    exact absurd h (by simp)
  | (tr2, .ok er) =>
    rw [hg] at h
    dsimp only at h
    match hvr : validateEmbeddingResponse
        (formatEmbeddingResponse er (body.model.getD "") val.isSingleText ts)
        val.inputTexts.length with
    | .error m => rw [hvr] at h; exact absurd h (by simp)
    | .ok b =>
      rw [hvr] at h
      dsimp only at h
      have hresp : formatEmbeddingResponse er (body.model.getD "") val.isSingleText ts =
          resp := by
        have := congrArg Prod.snd h
        exact EmbReply.success.inj this
      rw [hresp] at hvr
      obtain ⟨hb, hlen, hmem, -, hstr1, -, hstr2⟩ :=
        validateEmbeddingResponse_ok_inv _ _ _ hvr
      subst hb
      obtain ⟨-, -, -, h1, -⟩ := validateEmbeddingRequest_ok em prov body val hval
      refine ⟨hvr, hlen, ?_, hmem, hstr1, hstr2⟩
      intro hnil
      rw [hnil] at hlen
      simp at hlen
      omega

/-- Witness for C6 at a concrete two-text batch. -/
theorem embedding_success_revalidated_witness :
    validateEmbeddingResponse
      { embedding := none, embeddings := some [{ embedding := some [1] }, { embedding := some [1] }],
        model := .str "text-embedding-004", created_at := .str "ts" }
      (["a", "b"] : List String).length = .ok true ∧
    (responseVectors
      { embedding := none, embeddings := some [{ embedding := some [1] }, { embedding := some [1] }],
        model := .str "text-embedding-004", created_at := .str "ts" }).length =
      (["a", "b"] : List String).length ∧
    responseVectors
      { embedding := none, embeddings := some [{ embedding := some [1] }, { embedding := some [1] }],
        model := .str "text-embedding-004", created_at := .str "ts" } ≠ [] ∧
    (∀ w ∈ responseVectors
      { embedding := none, embeddings := some [{ embedding := some [1] }, { embedding := some [1] }],
        model := .str "text-embedding-004", created_at := .str "ts" }, w ≠ []) ∧
    jvalIsStr (JVal.str "text-embedding-004") = true ∧
    jvalIsStr (JVal.str "ts") = true :=
  embedding_success_revalidated em0 prov0 true (fun _ _ => .ok (some [1])) "ts"
    { model := some "text-embedding-004", prompt := .undef, input := .arr [.str "a", .str "b"] }
    [0, 1]
    { embedding := none, embeddings := some [{ embedding := some [1] }, { embedding := some [1] }],
      model := .str "text-embedding-004", created_at := .str "ts" }
    { modelConfig := { provider := "google", model := "text-embedding-004",
                       type := "embedding" },
      inputTexts := ["a", "b"], isSingleText := false }
    rfl rfl

/-- C1: for a valid batch of N texts where every per-item upstream call
succeeds with a non-empty vector, the endpoint issues exactly the calls
0..N-1 and sends a success whose envelope carries exactly N vectors, the
i-th being the vector the upstream returned for the i-th input text. -/
theorem embedding_batch_order (em : String → Option ModelConfig)
    (prov : String → Bool) (upstream : Nat → String → FetchResult)
    (ts : String) (body : EmbBody) (val : ValidatedEmb) (N : Nat) (v : Nat → List Int)
    (hval : validateEmbeddingRequest em prov body = .ok val)
    (hgoogle : val.modelConfig.provider = "google")
    (hN : val.inputTexts.length = N) (hN1 : 1 ≤ N) (hN100 : N ≤ 100)
    (hts : ts ≠ "")
    (hup : ∀ i (hi : i < val.inputTexts.length),
      upstream i (val.inputTexts.get ⟨i, hi⟩) = .ok (some (v i)) ∧ v i ≠ []) :
    ∃ resp, postEmbeddings em prov true upstream ts body = (List.range N, .success resp) ∧
      (responseVectors resp).length = N ∧
      ∀ i (hi : i < (responseVectors resp).length),
        (responseVectors resp).get ⟨i, hi⟩ = v i := by
  subst hN
  obtain ⟨⟨name, hmname, hname, -⟩, hsingle, -, -, -⟩ :=
    validateEmbeddingRequest_ok em prov body val hval
  have hmn : body.model.getD "" ≠ "" := by
    rw [hmname]
    simpa using hname
  have hitem : ∀ j (hj : j < val.inputTexts.length),
      embedItemResult (0 + j) (upstream (0 + j) (val.inputTexts.get ⟨j, hj⟩)) =
        .ok (v (0 + j)) := by
    intro j hj
    rw [Nat.zero_add]
    rw [(hup j hj).1]
    rfl
  have hloop := loop_all_ok upstream v val.inputTexts 0 hitem
  rw [← List.range_eq_range'] at hloop
  have hgen := generateEmbeddings_google val.modelConfig upstream val.inputTexts hgoogle
  rw [hloop] at hgen
  dsimp only at hgen
  unfold postEmbeddings
  rw [hval]
  dsimp only
  rw [hgen]
  dsimp only
  cases hst : val.isSingleText with
  | true =>
    have hone : val.inputTexts.length = 1 := by
      rw [hst] at hsingle
      have := (Bool.and_eq_true_iff.mp hsingle.symm).1
      simpa using this
    rw [hone]
    have hfmt : formatEmbeddingResponse
        { embeddings := (List.range 1).map v, model := val.modelConfig.model,
          dimensions := (((List.range 1).map v).headD []).length }
        (body.model.getD "") true ts =
        { embedding := some (v 0), embeddings := none,
          model := .str (body.model.getD ""), created_at := .str ts } := by
      unfold formatEmbeddingResponse
      simp [List.range_succ]
    rw [hfmt]
    rw [validate_single_envelope (v 0) _ ts hmn hts (hup 0 (by omega)).2]
    dsimp only
    refine ⟨_, rfl, ?_, ?_⟩
    · simp [responseVectors, hone]
    · intro i hi
      have hi1 : i = 0 := by
        simp [responseVectors] at hi
        omega
      subst hi1
      simp [responseVectors]
  | false =>
    have hfmt : formatEmbeddingResponse
        { embeddings := (List.range val.inputTexts.length).map v,
          model := val.modelConfig.model,
          dimensions := (((List.range val.inputTexts.length).map v).headD []).length }
        (body.model.getD "") false ts =
        { embedding := none,
          embeddings := some (((List.range val.inputTexts.length).map v).map
            fun e => { embedding := some e }),
          model := .str (body.model.getD ""), created_at := .str ts } := by
      unfold formatEmbeddingResponse
      simp
    rw [hfmt]
    have hcnt : val.inputTexts.length = ((List.range val.inputTexts.length).map v).length := by
      simp
    have hva := validate_batch_envelope ((List.range val.inputTexts.length).map v)
      (body.model.getD "") ts hmn hts ?hne
    case hne =>
      intro w hw
      obtain ⟨j, hj, hjw⟩ := List.mem_map.mp hw
      have hjlt : j < val.inputTexts.length := List.mem_range.mp hj
      rw [← hjw]
      exact (hup j hjlt).2
    rw [← hcnt] at hva
    rw [hva]
    dsimp only
    refine ⟨_, rfl, ?_, ?_⟩
    · simp [responseVectors]
    · intro i hi
      simp only [responseVectors] at hi ⊢
      simp only [List.length_map, List.length_range] at hi
      simp [List.get_eq_getElem]

/-- Witness for C1 at a concrete two-text batch with distinct vectors. -/
theorem embedding_batch_order_witness :
    ∃ resp, postEmbeddings em0 prov0 true (fun i _ => .ok (some [Int.ofNat i + 1])) "ts"
        { model := some "text-embedding-004", prompt := .undef,
          input := .arr [.str "a", .str "b"] } =
        (List.range 2, .success resp) ∧
      (responseVectors resp).length = 2 ∧
      ∀ i (hi : i < (responseVectors resp).length),
        (responseVectors resp).get ⟨i, hi⟩ = [Int.ofNat i + 1] :=
  embedding_batch_order em0 prov0 (fun i _ => .ok (some [Int.ofNat i + 1])) "ts"
    { model := some "text-embedding-004", prompt := .undef,
      input := .arr [.str "a", .str "b"] }
    { modelConfig := { provider := "google", model := "text-embedding-004",
                       type := "embedding" },
      inputTexts := ["a", "b"], isSingleText := false }
    2 (fun i => [Int.ofNat i + 1]) rfl rfl rfl (by decide) (by decide) (by decide)
    (fun i hi => ⟨rfl, by simp⟩)

/-- C4: if the upstream call for the item at index k of a validated batch is
the first to fail (earlier items succeed), the whole request fails with that
item's classified error: the calls issued are exactly 0..k (none past k) and
the reply is the classified failure, never a partial success. -/
theorem embedding_batch_abort (em : String → Option ModelConfig)
    (prov : String → Bool) (upstream : Nat → String → FetchResult)
    (ts : String) (body : EmbBody) (val : ValidatedEmb) (k : Nat) (m : String)
    (hval : validateEmbeddingRequest em prov body = .ok val)
    (hgoogle : val.modelConfig.provider = "google")
    (hk : k < val.inputTexts.length)
    (hpre : ∀ j (hj : j < val.inputTexts.length), j < k →
      ∃ w, embedItemResult j (upstream j (val.inputTexts.get ⟨j, hj⟩)) = .ok w)
    (hfail : embedItemResult k (upstream k (val.inputTexts.get ⟨k, hk⟩)) = .error m) :
    postEmbeddings em prov true upstream ts body =
      (List.range (k + 1),
        .failure (handleEmbeddingError m).1 (handleEmbeddingError m).2) ∧
    ∀ j ∈ (postEmbeddings em prov true upstream ts body).1, j ≤ k := by
  have hpre0 : ∀ j (hj : j < val.inputTexts.length), j < k →
      ∃ w, embedItemResult (0 + j) (upstream (0 + j) (val.inputTexts.get ⟨j, hj⟩)) =
        .ok w := by
    intro j hj hjk
    rw [Nat.zero_add]
    exact hpre j hj hjk
  have hfail0 : embedItemResult (0 + k) (upstream (0 + k) (val.inputTexts.get ⟨k, hk⟩)) =
      .error m := by
    rw [Nat.zero_add]
    exact hfail
  have hloop := loop_first_fail upstream m val.inputTexts 0 k hk hpre0 hfail0
  rw [← List.range_eq_range'] at hloop
  have hgen := generateEmbeddings_google val.modelConfig upstream val.inputTexts hgoogle
  rw [hloop] at hgen
  dsimp only at hgen
  have hmain : postEmbeddings em prov true upstream ts body =
      (List.range (k + 1),
        .failure (handleEmbeddingError m).1 (handleEmbeddingError m).2) := by
    unfold postEmbeddings
    rw [hval]
    dsimp only
    rw [hgen]
  refine ⟨hmain, ?_⟩
  rw [hmain]
  intro j hj
  have := List.mem_range.mp hj
  omega

/-- Witness for C4: a three-text batch whose second item hits an upstream
429; only calls 0 and 1 are issued and the reply is the classified
rate-limit failure. -/
theorem embedding_batch_abort_witness :
    postEmbeddings em0 prov0 true
      (fun i _ => if i == 0 then .ok (some [1]) else .httpErr 429 "quota") "ts"
      { model := some "text-embedding-004", prompt := .undef,
        input := .arr [.str "a", .str "b", .str "c"] } =
      (List.range (1 + 1),
        .failure
          (handleEmbeddingError
            "Google API rate limit exceeded. Please try again later.").1
          (handleEmbeddingError
            "Google API rate limit exceeded. Please try again later.").2) ∧
    ∀ j ∈ (postEmbeddings em0 prov0 true
      (fun i _ => if i == 0 then .ok (some [1]) else .httpErr 429 "quota") "ts"
      { model := some "text-embedding-004", prompt := .undef,
        input := .arr [.str "a", .str "b", .str "c"] }).1, j ≤ 1 :=
  embedding_batch_abort em0 prov0
    (fun i _ => if i == 0 then .ok (some [1]) else .httpErr 429 "quota") "ts"
    { model := some "text-embedding-004", prompt := .undef,
      input := .arr [.str "a", .str "b", .str "c"] }
    { modelConfig := { provider := "google", model := "text-embedding-004",
                       type := "embedding" },
      inputTexts := ["a", "b", "c"], isSingleText := false }
    1 "Google API rate limit exceeded. Please try again later."
    rfl rfl (by decide)
    (fun j hj hjk => by
      have hj0 : j = 0 := by omega
      subst hj0
      exact ⟨[1], rfl⟩)
    rfl

/-! ### C7: size limits and trimming of the embedding request validator -/

theorem checkLengths_ok (ts : List String) : ∀ (i : Nat),
    (∀ t ∈ ts, t.length ≤ 10000) → checkLengths i ts = .ok () := by
  induction ts with
  | nil => intro i _; rfl
  | cons t ts ih =>
    intro i h
    unfold checkLengths
    rw [if_neg (by have := h t (by simp); omega)]
    exact ih (i + 1) fun t2 ht2 => h t2 (by simp [ht2])

theorem checkLengths_first_fail (ts : List String) : ∀ (s i : Nat) (hi : i < ts.length),
    (∀ j (hj : j < ts.length), j < i → (ts.get ⟨j, hj⟩).length ≤ 10000) →
    (ts.get ⟨i, hi⟩).length > 10000 →
    checkLengths s ts = .error ("Input text at index " ++ toString (s + i) ++
      " is too long. Maximum length: 10000 characters") := by
  induction ts with
  | nil => intro s i hi; exact absurd hi (by simp)
  | cons t ts ih =>
    intro s i hi hpre hbig
    match i with
    | 0 =>
      have hb : t.length > 10000 := hbig
      unfold checkLengths
      rw [if_pos hb]
      rfl
    | i + 1 =>
      have hok : t.length ≤ 10000 := hpre 0 (by simp) (Nat.succ_pos i)
      have hi2 : i < ts.length := Nat.lt_of_succ_lt_succ hi
      unfold checkLengths
      rw [if_neg (by omega)]
      have hpre2 : ∀ j (hj : j < ts.length), j < i → (ts.get ⟨j, hj⟩).length ≤ 10000 :=
        fun j hj hji => hpre (j + 1) (Nat.succ_lt_succ hj) (Nat.succ_lt_succ hji)
      have := ih (s + 1) i hi2 hpre2 hbig
      rw [this]
      have hidx : s + 1 + i = s + (i + 1) := by omega
      rw [hidx]

theorem parseInputs_replicate (t : String) (ht : (jsTrim t == "") = false) :
    ∀ (n i : Nat), parseInputs i (List.replicate n (.str t)) =
      .ok (List.replicate n (jsTrim t)) := by
  intro n
  induction n with
  | zero => intro i; rfl
  | succ n ih =>
    intro i
    rw [List.replicate_succ]
    simp only [parseInputs, ht, Bool.false_eq_true, reduceIte]
    rw [ih (i + 1)]
    rw [List.replicate_succ]

theorem dropWhile_replicate_not (n : Nat) (c : Char) (h : Char.isWhitespace c = false) :
    (List.replicate n c).dropWhile Char.isWhitespace = List.replicate n c := by
  cases n with
  | zero => rfl
  | succ n =>
    rw [List.replicate_succ, List.dropWhile_cons, h]
    simp

/-- A 10,000-character input text sitting exactly on the length limit. -/
def bigText : String := ⟨List.replicate 10000 'a'⟩

/-- A batch body sitting exactly on both limits: 100 texts of 10,000
characters each. -/
def body100 : EmbBody :=
  { model := some "text-embedding-004", prompt := .undef,
    input := .arr (List.replicate 100 (.str bigText)) }

theorem jsTrim_bigText : jsTrim bigText = bigText := by
  unfold jsTrim bigText
  have ha : Char.isWhitespace 'a' = false := by decide
  rw [show (String.mk (List.replicate 10000 'a')).data = List.replicate 10000 'a' from rfl]
  rw [dropWhile_replicate_not _ _ ha, List.reverse_replicate,
    dropWhile_replicate_not _ _ ha, List.reverse_replicate]

theorem bigText_length : bigText.length = 10000 := by
  have : bigText.length = (List.replicate 10000 'a').length := rfl
  rw [this, List.length_replicate]

/-- Reduction of the validator once the model is resolved, the prompt is
falsy and the input is an array. -/
theorem validateEmbeddingRequest_arr (em : String → Option ModelConfig)
    (prov : String → Bool) (body : EmbBody) (name : String) (cfg : ModelConfig)
    (xs : List JVal)
    (hm : body.model = some name) (hn : (name == "") = false)
    (hvm : validateEmbeddingModel em prov name = .ok cfg)
    (hp : jvalTruthy body.prompt = false)
    (hi : body.input = .arr xs) :
    validateEmbeddingRequest em prov body =
      (if (xs.length == 0) = true then .error "Input array cannot be empty"
       else
        match parseInputs 0 xs with
        | .error m => .error m
        | .ok texts => finishValidation cfg texts (!(body.prompt matches JVal.undef))) := by
  unfold validateEmbeddingRequest
  rw [hm]
  dsimp only
  rw [hn]
  simp only [Bool.false_eq_true, reduceIte]
  rw [hvm]
  dsimp only
  rw [hp]
  simp only [Bool.false_eq_true, reduceIte]
  rw [hi]
  rfl

theorem body100_validates :
    validateEmbeddingRequest em0 prov0 body100 =
      .ok { modelConfig := { provider := "google", model := "text-embedding-004",
                             type := "embedding" },
            inputTexts := List.replicate 100 bigText, isSingleText := false } := by
  have ht : (jsTrim bigText == "") = false := by
    rw [jsTrim_bigText]
    decide
  have hpi : parseInputs 0 (List.replicate 100 (.str bigText)) =
      .ok (List.replicate 100 bigText) := by
    have := parseInputs_replicate bigText ht 100 0
    rw [jsTrim_bigText] at this
    exact this
  have hcl : checkLengths 0 (List.replicate 100 bigText) = .ok () := by
    apply checkLengths_ok
    intro t htm
    rw [List.eq_of_mem_replicate htm, bigText_length]
  have harr := validateEmbeddingRequest_arr em0 prov0 body100 "text-embedding-004"
    { provider := "google", model := "text-embedding-004", type := "embedding" }
    (List.replicate 100 (.str bigText)) rfl (by decide) rfl rfl rfl
  rw [harr]
  rw [if_neg (show ¬((List.replicate 100 (JVal.str bigText)).length == 0) = true by simp)]
  rw [hpi]
  dsimp only
  unfold finishValidation
  rw [if_neg (show ¬(List.replicate 100 bigText).length > 100 by simp)]
  rw [hcl]
  dsimp only
  rw [show (List.replicate 100 bigText).length = 100 from by simp]
  rfl

/-- C7: the validator rejects an empty `input` array with a message
containing "cannot be empty", rejects a batch of more than 100 well-formed
texts with a message containing "Maximum allowed", rejects an over-10,000
character (trimmed) text with the index-specific too-long message; a batch
of exactly 100 texts of exactly 10,000 characters is accepted; and every
accepted input text is the trimmed original (from `prompt`, string `input`,
or element-wise over an `input` array). -/
theorem embedding_input_limits :
    (∀ (em : String → Option ModelConfig) (prov : String → Bool) (body : EmbBody)
        (name : String) (cfg : ModelConfig),
      body.model = some name → (name == "") = false →
      validateEmbeddingModel em prov name = .ok cfg →
      jvalTruthy body.prompt = false → body.input = .arr [] →
      validateEmbeddingRequest em prov body = .error "Input array cannot be empty") ∧
    jsIncludes "Input array cannot be empty" "cannot be empty" = true ∧
    (∀ (em : String → Option ModelConfig) (prov : String → Bool) (body : EmbBody)
        (name : String) (cfg : ModelConfig) (xs : List JVal) (texts : List String),
      body.model = some name → (name == "") = false →
      validateEmbeddingModel em prov name = .ok cfg →
      jvalTruthy body.prompt = false → body.input = .arr xs →
      parseInputs 0 xs = .ok texts → texts.length > 100 →
      validateEmbeddingRequest em prov body =
        .error "Too many input texts. Maximum allowed: 100") ∧
    jsIncludes "Too many input texts. Maximum allowed: 100" "Maximum allowed" = true ∧
    (∀ (em : String → Option ModelConfig) (prov : String → Bool) (body : EmbBody)
        (name : String) (cfg : ModelConfig) (xs : List JVal) (texts : List String)
        (i : Nat) (hi : i < texts.length),
      body.model = some name → (name == "") = false →
      validateEmbeddingModel em prov name = .ok cfg →
      jvalTruthy body.prompt = false → body.input = .arr xs →
      parseInputs 0 xs = .ok texts → texts.length ≤ 100 →
      (∀ j (hj : j < texts.length), j < i → (texts.get ⟨j, hj⟩).length ≤ 10000) →
      (texts.get ⟨i, hi⟩).length > 10000 →
      validateEmbeddingRequest em prov body =
        .error ("Input text at index " ++ toString i ++
          " is too long. Maximum length: 10000 characters")) ∧
    (∃ val, validateEmbeddingRequest em0 prov0 body100 = .ok val ∧
      val.inputTexts.length = 100 ∧ ∀ t ∈ val.inputTexts, t.length = 10000) ∧
    (∀ (em : String → Option ModelConfig) (prov : String → Bool) (body : EmbBody)
        (val : ValidatedEmb),
      validateEmbeddingRequest em prov body = .ok val →
      (∀ p, body.prompt = .str p → jvalTruthy body.prompt = true →
        val.inputTexts = [jsTrim p]) ∧
      (∀ s, jvalTruthy body.prompt = false → body.input = .str s →
        val.inputTexts = [jsTrim s]) ∧
      (∀ xs, jvalTruthy body.prompt = false → body.input = .arr xs →
        val.inputTexts = xs.map fun x =>
          match x with | .str s2 => jsTrim s2 | _ => "")) := by
  refine ⟨?_, by decide, ?_, by decide, ?_, ?_, ?_⟩
  · intro em prov body name cfg hm hn hvm hp hi
    rw [validateEmbeddingRequest_arr em prov body name cfg [] hm hn hvm hp hi]
    rfl
  · intro em prov body name cfg xs texts hm hn hvm hp hi hpi h100
    rw [validateEmbeddingRequest_arr em prov body name cfg xs hm hn hvm hp hi]
    have hxs : texts.length = xs.length := parseInputs_ok_length 0 xs texts hpi
    rw [if_neg (show ¬(xs.length == 0) = true by simp only [beq_iff_eq]; omega)]
    rw [hpi]
    dsimp only
    unfold finishValidation
    rw [if_pos h100]
  · intro em prov body name cfg xs texts i hi hm hn hvm hp hinp hpi h100 hpre hbig
    rw [validateEmbeddingRequest_arr em prov body name cfg xs hm hn hvm hp hinp]
    have hxs : texts.length = xs.length := parseInputs_ok_length 0 xs texts hpi
    rw [if_neg (show ¬(xs.length == 0) = true by simp only [beq_iff_eq]; omega)]
    rw [hpi]
    dsimp only
    unfold finishValidation
    rw [if_neg (by omega)]
    have hcl := checkLengths_first_fail texts 0 i hi hpre hbig
    rw [Nat.zero_add] at hcl
    rw [hcl]
  · refine ⟨_, body100_validates, by simp, ?_⟩
    intro t ht
    have hteq : t = bigText := by simpa using ht
    rw [hteq, bigText_length]
  · intro em prov body val h
    obtain ⟨-, -, hdisj, -, -⟩ := validateEmbeddingRequest_ok em prov body val h
    refine ⟨?_, ?_, ?_⟩
    · intro p hp htr
      rcases hdisj with ⟨p2, hp2, -, ht⟩ | ⟨hf, -⟩ | ⟨hf, -⟩
      · rw [hp] at hp2
        rw [ht, JVal.str.inj hp2]
      · rw [htr] at hf
        exact absurd hf (by simp)
      · rw [htr] at hf
        exact absurd hf (by simp)
    · intro s hf hs
      rcases hdisj with ⟨p2, -, htr, -⟩ | ⟨-, s2, hs2, ht⟩ | ⟨-, xs, hxs, -⟩
      · rw [hf] at htr
        exact absurd htr (by simp)
      · rw [hs] at hs2
        rw [ht, JVal.str.inj hs2]
      · rw [hs] at hxs
        exact absurd hxs (by simp)
    · intro xs hf hxs
      rcases hdisj with ⟨p2, -, htr, -⟩ | ⟨-, s2, hs2, -⟩ | ⟨-, xs2, hxs2, hpi⟩
      · rw [hf] at htr
        exact absurd htr (by simp)
      · rw [hxs] at hs2
        exact absurd hs2 (by simp)
      · rw [hxs] at hxs2
        rw [← JVal.arr.inj hxs2] at hpi
        exact parseInputs_ok_elem 0 xs val.inputTexts hpi

/-- Witness for C7: the empty array is rejected with the
"cannot be empty" message, and the exact-limit batch of `body100` is
accepted. -/
theorem embedding_input_limits_witness :
    validateEmbeddingRequest em0 prov0
      { model := some "text-embedding-004", prompt := .undef, input := .arr [] } =
      .error "Input array cannot be empty" ∧
    (∃ val, validateEmbeddingRequest em0 prov0 body100 = .ok val ∧
      val.inputTexts.length = 100 ∧ ∀ t ∈ val.inputTexts, t.length = 10000) :=
  ⟨embedding_input_limits.1 em0 prov0
      { model := some "text-embedding-004", prompt := .undef, input := .arr [] }
      "text-embedding-004"
      { provider := "google", model := "text-embedding-004", type := "embedding" }
      rfl (by decide) rfl rfl rfl,
   embedding_input_limits.2.2.2.2.2.1⟩

end OllamaProxy
